import Mathlib

set_option maxHeartbeats 1000000

/-!
Verification development for the model-configuration module (`aider/models.py`).

The module is embedded shallowly:

* The image token cost estimator `Model.token_count_for_image` is embedded as a
  pure function on the decoded pixel dimensions.  Python's binary floating point
  scale factors (`2048 / max_dimension`, `768 / min_dimension`) are modelled as
  exact rationals, and Python's `int(...)` truncation of a non-negative value is
  the rational floor `⌊·⌋₊`; `math.ceil` is `⌈·⌉₊`.  A division by zero (which
  raises `ZeroDivisionError` in Python) is modelled by the result `none`.
* The settings registry `MODEL_SETTINGS` and the cascade
  `Model.configure_model_settings` are embedded verbatim; Python's chained
  equality loop over the registry is `List.find?` on the first exact name match.
* `Model.__init__` is `buildModel`.  The external collaborators
  (`litellm.validate_environment`, `litellm.get_model_info`,
  `litellm.model_cost`, and `difflib`'s sequence-similarity measure) are fields
  of an `Env` parameter.  Raised exceptions become `Except.error`; the only
  value of the metadata bag that the module reads is `"max_input_tokens"`, so
  the bag is an association list from keys to numbers.  The Python object cycle
  `self.weak_model = self` is represented by the tagged case
  `WeakModel.selfW`; a distinct recursively constructed weak model is
  `WeakModel.distinctW`.
* `fuzzy_match_models` and `check_model_name` are embedded directly;
  `difflib.get_close_matches(word, keys, n, cutoff)` is embedded by its
  documented semantics: keep the catalog keys whose similarity to `word` is at
  least `cutoff` and return the `n` largest, ordered by descending
  `(similarity, key)` pairs exactly as `heapq.nlargest` orders tuples.
-/

/-- Step 1 of the image cost formula: if either dimension exceeds 2048, scale
both dimensions by `2048/max(width,height)`, truncating to integer pixels
(`int(width * scale_factor)` on a non-negative exact value is integer
division). -/
def scale_step_one (width height : ℕ) : ℕ × ℕ :=
  if 2048 < max width height then
    (width * 2048 / max width height, height * 2048 / max width height)
  else (width, height)

/-- The four-step image token cost formula of spec section 4.4, written with
exact integer truncation (`⌊a·(k/m)⌋ = a*k/m` for naturals): downscale into
2048×2048 if needed, rescale the shorter side to 768, count 512×512 tiles at
170 tokens each plus a fixed 85.  The result is `none` when step 1 truncates
the smaller dimension to 0, in which case step 2 would divide by zero. -/
def image_token_cost (width height : ℕ) : Option ℕ :=
  let w1 := (scale_step_one width height).1
  let h1 := (scale_step_one width height).2
  if min w1 h1 = 0 then none
  else
    let w2 := w1 * 768 / min w1 h1
    let h2 := h1 * 768 / min w1 h1
    some ((w2 + 511) / 512 * ((h2 + 511) / 512) * 170 + 85)

/-- Embedding of `Model.token_count_for_image` applied to already decoded
dimensions `(width, height)`.  The float scale factors of the source are
modelled as exact rationals; `int(...)` on the non-negative products is `⌊·⌋₊`
and `math.ceil(width / 512)` is `⌈·⌉₊`.  Python raises `ZeroDivisionError` when
`min_dimension` is 0 (possible after the step-1 truncation); this is the
`none` result. -/
def token_count_for_image (width height : ℕ) : Option ℕ :=
  let max_dimension := max width height
  let w1 := if 2048 < max_dimension then
      ⌊(width : ℚ) * ((2048 : ℚ) / (max_dimension : ℚ))⌋₊ else width
  let h1 := if 2048 < max_dimension then
      ⌊(height : ℚ) * ((2048 : ℚ) / (max_dimension : ℚ))⌋₊ else height
  let min_dimension := min w1 h1
  if min_dimension = 0 then none
  else
    let w2 := ⌊(w1 : ℚ) * ((768 : ℚ) / (min_dimension : ℚ))⌋₊
    let h2 := ⌊(h1 : ℚ) * ((768 : ℚ) / (min_dimension : ℚ))⌋₊
    let tiles_width := ⌈(w2 : ℚ) / 512⌉₊
    let tiles_height := ⌈(h2 : ℚ) / 512⌉₊
    some (tiles_width * tiles_height * 170 + 85)

/-- Boolean test that the first character list is a prefix of the second. -/
def isPrefixOfL : List Char → List Char → Bool
  | [], _ => true
  | _ :: _, [] => false
  | p :: ps, c :: cs => p == c && isPrefixOfL ps cs

/-- Boolean test that the first character list occurs as a contiguous run
inside the second. -/
def containsSub : List Char → List Char → Bool
  | pat, [] => isPrefixOfL pat []
  | pat, c :: rest => isPrefixOfL pat (c :: rest) || containsSub pat rest

/-- Embedding of Python's substring test `pat in hay` on strings. -/
def strContains (hay pat : String) : Bool :=
  containsSub pat.toList hay.toList

/-- The `ModelSettings` dataclass: a named preset of the five configuration
fields. -/
structure ModelSettings where
  name : String
  edit_format : String
  weak_model_name : Option String := none
  use_repo_map : Bool := false
  send_undo_reply : Bool := false
  accepts_images : Bool := false

deriving instance DecidableEq for ModelSettings

/-- The static settings registry `MODEL_SETTINGS`, transcribed entry by
entry. -/
def MODEL_SETTINGS : List ModelSettings :=
  [ { name := "gpt-3.5-turbo-0125", edit_format := "whole",
      weak_model_name := some "gpt-3.5-turbo" },
    { name := "gpt-3.5-turbo-1106", edit_format := "whole",
      weak_model_name := some "gpt-3.5-turbo" },
    { name := "gpt-3.5-turbo-0613", edit_format := "whole",
      weak_model_name := some "gpt-3.5-turbo" },
    { name := "gpt-3.5-turbo-16k-0613", edit_format := "whole",
      weak_model_name := some "gpt-3.5-turbo" },
    { name := "gpt-4-turbo-2024-04-09", edit_format := "udiff",
      weak_model_name := some "gpt-3.5-turbo", use_repo_map := true,
      send_undo_reply := true, accepts_images := true },
    { name := "gpt-4-turbo", edit_format := "udiff",
      weak_model_name := some "gpt-3.5-turbo", use_repo_map := true,
      send_undo_reply := true, accepts_images := true },
    { name := "gpt-4-0125-preview", edit_format := "udiff",
      weak_model_name := some "gpt-3.5-turbo", use_repo_map := true,
      send_undo_reply := true },
    { name := "gpt-4-1106-preview", edit_format := "udiff",
      weak_model_name := some "gpt-3.5-turbo", use_repo_map := true,
      send_undo_reply := true },
    { name := "gpt-4-vision-preview", edit_format := "diff",
      weak_model_name := some "gpt-3.5-turbo", use_repo_map := true,
      send_undo_reply := true, accepts_images := true },
    { name := "gpt-4-0613", edit_format := "diff",
      weak_model_name := some "gpt-3.5-turbo", use_repo_map := true,
      send_undo_reply := true },
    { name := "gpt-4-32k-0613", edit_format := "diff",
      weak_model_name := some "gpt-3.5-turbo", use_repo_map := true,
      send_undo_reply := true },
    { name := "claude-3-opus-20240229", edit_format := "diff",
      weak_model_name := some "claude-3-haiku-20240307", use_repo_map := true,
      send_undo_reply := true },
    { name := "claude-3-sonnet-20240229", edit_format := "whole",
      weak_model_name := some "claude-3-haiku-20240307" },
    { name := "command-r-plus", edit_format := "whole",
      weak_model_name := some "command-r-plus", use_repo_map := true,
      send_undo_reply := true },
    { name := "groq/llama3-70b-8192", edit_format := "diff",
      weak_model_name := some "groq/llama3-8b-8192", use_repo_map := true,
      send_undo_reply := true } ]

/-- The class-level defaults of `Model` together with `self.name = model`
(assigned first in `__init__`): this is the state that
`configure_model_settings` starts from. -/
def defaultSettings (model : String) : ModelSettings :=
  { name := model, edit_format := "whole", weak_model_name := none,
    use_repo_map := false, send_undo_reply := false, accepts_images := false }

/-- Embedding of `Model.configure_model_settings`.  The registry loop returns
on the first exact name match, copying every dataclass field; otherwise the
substring rules run in order; if nothing matched, the defensive rule forces
`use_repo_map` when the current (default) edit format is `"diff"`. -/
def configure_model_settings (s : ModelSettings) (model : String) : ModelSettings :=
  match MODEL_SETTINGS.find? (fun ms => model == ms.name) with
  | some ms =>
    { name := ms.name, edit_format := ms.edit_format,
      weak_model_name := ms.weak_model_name, use_repo_map := ms.use_repo_map,
      send_undo_reply := ms.send_undo_reply, accepts_images := ms.accepts_images }
  | none =>
    if strContains model "llama3" && strContains model "70b" then
      { s with edit_format := "diff", use_repo_map := true, send_undo_reply := true }
    else if strContains model "gpt-4-turbo" ||
        (strContains model "gpt-4-" && strContains model "-preview") then
      { s with edit_format := "udiff", use_repo_map := true, send_undo_reply := true }
    else if strContains model "gpt-4" || strContains model "claude-2" ||
        strContains model "claude-3-opus" then
      { s with edit_format := "diff", use_repo_map := true, send_undo_reply := true }
    else
      if s.edit_format == "diff" then { s with use_repo_map := true } else s

/-- The cascade with the final defensive rule removed: used to state that the
defensive rule is dead code under the class defaults. -/
def configureNoDefensive (s : ModelSettings) (model : String) : ModelSettings :=
  match MODEL_SETTINGS.find? (fun ms => model == ms.name) with
  | some ms =>
    { name := ms.name, edit_format := ms.edit_format,
      weak_model_name := ms.weak_model_name, use_repo_map := ms.use_repo_map,
      send_undo_reply := ms.send_undo_reply, accepts_images := ms.accepts_images }
  | none =>
    if strContains model "llama3" && strContains model "70b" then
      { s with edit_format := "diff", use_repo_map := true, send_undo_reply := true }
    else if strContains model "gpt-4-turbo" ||
        (strContains model "gpt-4-" && strContains model "-preview") then
      { s with edit_format := "udiff", use_repo_map := true, send_undo_reply := true }
    else if strContains model "gpt-4" || strContains model "claude-2" ||
        strContains model "claude-3-opus" then
      { s with edit_format := "diff", use_repo_map := true, send_undo_reply := true }
    else
      s

/-- Result of `litellm.validate_environment`: the reported missing keys and the
`keys_in_environment` flag. -/
structure ValidationResult where
  missing_keys : List String
  keys_in_environment : Bool

/-- The weak-model link of a resolved model: the class default `None`
(`noneW`), the self-reference `self.weak_model = self` (`selfW`), or a
distinct recursively constructed profile (`distinctW`). -/
inductive WeakModel (M : Type) : Type where
  | noneW : WeakModel M
  | selfW : WeakModel M
  | distinctW : M → WeakModel M

/-- A resolved `Model`: its settings fields, `max_chat_history_tokens`, the
metadata bag `info`, and the weak-model link. -/
inductive Model : Type where
  | mk : ModelSettings → Nat → List (String × Nat) → WeakModel Model → Model

/-- The settings fields of a resolved model. -/
def Model.settings : Model → ModelSettings
  | Model.mk s _ _ _ => s

/-- The derived `max_chat_history_tokens` of a resolved model. -/
def Model.max_chat_history_tokens : Model → Nat
  | Model.mk _ t _ _ => t

/-- The metadata bag of a resolved model. -/
def Model.info : Model → List (String × Nat)
  | Model.mk _ _ i _ => i

/-- The weak-model link of a resolved model. -/
def Model.weak_model : Model → WeakModel Model
  | Model.mk _ _ _ w => w

/-- The `weak_model_name` attribute of a resolved model. -/
def Model.weak_model_name (m : Model) : Option String :=
  m.settings.weak_model_name

/-- The two exceptions `Model.__init__` can raise itself:
`ModelEnvironmentError` and `NoModelInfo`, each carrying its message. -/
inductive ModelError : Type where
  | environmentMissing : String → ModelError
  | noModelInfo : String → ModelError

deriving instance DecidableEq for ModelError

/-- The `weak_model` keyword argument of `Model.__init__`: Python's `None`
(the default), `False`, or an explicit weak model name. -/
inductive WeakArg : Type where
  | noneA : WeakArg
  | falseA : WeakArg
  | nameA : String → WeakArg

deriving instance DecidableEq for WeakArg

/-- Termination measure for `buildModel`: the recursive call always passes
`falseA`. -/
def WeakArg.rank : WeakArg → Nat
  | WeakArg.falseA => 0
  | _ => 1

/-- The external collaborators of the module, as read-only functions:
`litellm.validate_environment`, `litellm.get_model_info` (which may throw),
the keys of `litellm.model_cost`, and the sequence-similarity measure used by
`difflib.get_close_matches` (`SequenceMatcher.ratio`, an external algorithm,
kept abstract). -/
structure Env where
  validate_environment : String → ValidationResult
  get_model_info : String → Except Unit (List (String × Nat))
  model_cost : List String
  similarity : String → String → ℚ

/-- The `ModelEnvironmentError` message: the header followed by `"- " + key`
for each missing key, concatenated in reported order exactly as the source
builds it. -/
def envErrMsg (model : String) (missing_keys : List String) : String :=
  missing_keys.foldl (fun r key => r ++ "- " ++ key)
    ("To use model " ++ model ++ ", please set these environment variables:")

/-- Strict descending comparison on `(similarity, key)` pairs: Python's
`heapq.nlargest` on tuples orders by the score and breaks ties by the string
(code-point lexicographic). -/
def pairLt (p q : ℚ × String) : Bool :=
  decide (p.1 < q.1 ∨ (p.1 = q.1 ∧ p.2 < q.2))

/-- Insert a pair into a descending-sorted list, keeping it sorted. -/
def insertPairDesc (x : ℚ × String) : List (ℚ × String) → List (ℚ × String)
  | [] => [x]
  | y :: ys => if pairLt x y then y :: insertPairDesc x ys else x :: y :: ys

/-- Sort a list of `(similarity, key)` pairs in descending tuple order. -/
def sortPairsDesc : List (ℚ × String) → List (ℚ × String)
  | [] => []
  | x :: xs => insertPairDesc x (sortPairsDesc xs)

/-- Embedding of `difflib.get_close_matches(word, keys, n, cutoff)`: keep the
catalog keys whose similarity to `word` reaches the cutoff (the quick-check
filters of difflib are upper bounds on the same measure, so they do not change
the kept set), order by descending `(score, key)` as `heapq.nlargest` does on
tuples, and return the first `n` keys. -/
def get_close_matches (env : Env) (word : String) (n : Nat) (cutoff : ℚ) : List String :=
  let scored := (env.model_cost.filter (fun x => cutoff ≤ env.similarity x word)).map
    (fun x => (env.similarity x word, x))
  ((sortPairsDesc scored).take n).map Prod.snd

/-- Embedding of `fuzzy_match_models`: exact catalog key, else all catalog keys
containing `name` as a substring in catalog order, else close matches with
`n=3`, `cutoff=0.8`. -/
def fuzzy_match_models (env : Env) (name : String) : List String :=
  if name ∈ env.model_cost then [name]
  else if env.model_cost.filter (fun m => strContains m name) = [] then
    get_close_matches env name 3 (4 / 5)
  else env.model_cost.filter (fun m => strContains m name)

/-- Embedding of `check_model_name`: the `NoModelInfo` message with the fuzzy
suggestions appended. -/
def check_model_name (env : Env) (model : String) : String :=
  let possible_matches := fuzzy_match_models env model
  if possible_matches = [] then "Unknown model " ++ model
  else possible_matches.foldl (fun r m => r ++ "\n- " ++ m)
    ("Unknown model " ++ model ++ ", did you mean one of these?")

/-- `info.get(key, dflt)` on the metadata bag. -/
def infoGet (info : List (String × Nat)) (key : String) (dflt : Nat) : Nat :=
  match info.find? (fun p => p.1 == key) with
  | some p => p.2
  | none => dflt

/-- Whether a metadata lookup threw. -/
def exceptIsErr {ε α : Type} : Except ε α → Bool
  | Except.error _ => true
  | Except.ok _ => false

/-- The metadata bag after the `try`/`except` of `__init__` when the lookup is
not required to succeed: the looked-up bag, or the empty dict. -/
def infoOf : Except Unit (List (String × Nat)) → List (String × Nat)
  | Except.ok i => i
  | Except.error _ => []

/-- Derivation of `max_chat_history_tokens`: 1024 below 32k reported maximum
input tokens (or unknown), else 2048. -/
def maxChatTokens (info : List (String × Nat)) : Nat :=
  if infoGet info "max_input_tokens" 0 < 32 * 1024 then 1024 else 2 * 1024

/-- The override at the top of `get_weak_model`: a truthy provided weak model
name (a non-empty string) replaces `weak_model_name`. -/
def overrideWeak (s : ModelSettings) (weakArg : WeakArg) : ModelSettings :=
  match weakArg with
  | WeakArg.nameA p => if p = "" then s else { s with weak_model_name := some p }
  | _ => s

/-- The self-reference tests of `get_weak_model`: a falsy (`None` or empty)
weak model name, or one equal to the model's own name, yields no distinct weak
model. -/
def normWeak (model : String) (wn : Option String) : Option String :=
  match wn with
  | none => none
  | some w => if w = "" then none else if w = model then none else some w

/-- The name, if any, for which construction recursively resolves a distinct
weak model profile. -/
def weakTarget (model : String) (weakArg : WeakArg) : Option String :=
  match weakArg with
  | WeakArg.falseA => none
  | _ => normWeak model
      (overrideWeak (configure_model_settings (defaultSettings model) model) weakArg).weak_model_name

/-- Embedding of `Model.__init__`: validate the environment (raising
`ModelEnvironmentError` when keys are missing and validation is requested),
look up the model info (raising `NoModelInfo` when the lookup throws and the
info is required, otherwise proceeding with an empty bag), derive
`max_chat_history_tokens`, apply the settings cascade, then resolve the weak
model: `weak_model=False` clears `weak_model_name`; otherwise a truthy
provided name overrides it, a falsy or self-equal name yields the
self-reference, and any other name is resolved recursively with
`weak_model=False`, the same `require_model_info`, and the default
`validate_environment=True` (the source does not pass that keyword in the
recursive call). -/
def buildModel (env : Env) (model : String) (weakArg : WeakArg)
    (require_model_info validate_environment : Bool) : Except ModelError Model :=
  let res := env.validate_environment model
  if res.missing_keys ≠ [] ∧ validate_environment = true then
    Except.error (ModelError.environmentMissing (envErrMsg model res.missing_keys))
  else if exceptIsErr (env.get_model_info model) = true ∧ require_model_info = true then
    Except.error (ModelError.noModelInfo (check_model_name env model))
  else
    let info := infoOf (env.get_model_info model)
    let max_chat_history_tokens := maxChatTokens info
    let s := configure_model_settings (defaultSettings model) model
    let s1 := overrideWeak s weakArg
    if hfalse : weakArg = WeakArg.falseA then
      Except.ok (Model.mk { s1 with weak_model_name := none }
        max_chat_history_tokens info WeakModel.noneW)
    else
      match s1.weak_model_name with
      | none => Except.ok (Model.mk s1 max_chat_history_tokens info WeakModel.selfW)
      | some w =>
        if w = "" then Except.ok (Model.mk s1 max_chat_history_tokens info WeakModel.selfW)
        else if w = model then
          Except.ok (Model.mk s1 max_chat_history_tokens info WeakModel.selfW)
        else
          match buildModel env w WeakArg.falseA require_model_info true with
          | Except.error e => Except.error e
          | Except.ok wm =>
            Except.ok (Model.mk s1 max_chat_history_tokens info (WeakModel.distinctW wm))
termination_by weakArg.rank
decreasing_by cases weakArg <;> simp_all [WeakArg.rank]

/-- The `weak_model=False` instance of construction, written out: it never
recurses and leaves the weak link at the class default. -/
def buildModelNoWeak (env : Env) (model : String)
    (require_model_info validate_environment : Bool) : Except ModelError Model :=
  if (env.validate_environment model).missing_keys ≠ [] ∧ validate_environment = true then
    Except.error (ModelError.environmentMissing
      (envErrMsg model (env.validate_environment model).missing_keys))
  else if exceptIsErr (env.get_model_info model) = true ∧ require_model_info = true then
    Except.error (ModelError.noModelInfo (check_model_name env model))
  else
    Except.ok (Model.mk
      { configure_model_settings (defaultSettings model) model with
        weak_model_name := none }
      (maxChatTokens (infoOf (env.get_model_info model)))
      (infoOf (env.get_model_info model)) WeakModel.noneW)

/-- The weak-model phase of construction with the recursive call replaced by
`buildModelNoWeak` (they agree, which is proved below). -/
def weakPhase (env : Env) (model : String) (weakArg : WeakArg) (ri : Bool)
    (info : List (String × Nat)) (s1 : ModelSettings) : Except ModelError Model :=
  if weakArg = WeakArg.falseA then
    Except.ok (Model.mk { s1 with weak_model_name := none }
      (maxChatTokens info) info WeakModel.noneW)
  else
    match s1.weak_model_name with
    | none => Except.ok (Model.mk s1 (maxChatTokens info) info WeakModel.selfW)
    | some w =>
      if w = "" then Except.ok (Model.mk s1 (maxChatTokens info) info WeakModel.selfW)
      else if w = model then
        Except.ok (Model.mk s1 (maxChatTokens info) info WeakModel.selfW)
      else
        match buildModelNoWeak env w ri true with
        | Except.error e => Except.error e
        | Except.ok wm =>
          Except.ok (Model.mk s1 (maxChatTokens info) info (WeakModel.distinctW wm))

/-- A non-recursive unrolling of `buildModel`, justified by the fact that the
recursion always passes `weak_model=False`. -/
def buildModelExp (env : Env) (model : String) (weakArg : WeakArg)
    (ri ve : Bool) : Except ModelError Model :=
  if (env.validate_environment model).missing_keys ≠ [] ∧ ve = true then
    Except.error (ModelError.environmentMissing
      (envErrMsg model (env.validate_environment model).missing_keys))
  else if exceptIsErr (env.get_model_info model) = true ∧ ri = true then
    Except.error (ModelError.noModelInfo (check_model_name env model))
  else
    weakPhase env model weakArg ri (infoOf (env.get_model_info model))
      (overrideWeak (configure_model_settings (defaultSettings model) model) weakArg)

/-- Whether a construction result is a raised `ModelEnvironmentError`. -/
def isEnvMissing : Except ModelError Model → Bool
  | Except.error (ModelError.environmentMissing _) => true
  | _ => false

/-- A benign environment: no missing keys, metadata lookups succeed with an
empty bag. -/
def envOk : Env :=
  { validate_environment := fun _ => { missing_keys := [], keys_in_environment := true },
    get_model_info := fun _ => Except.ok [],
    model_cost := [],
    similarity := fun _ _ => 0 }

/-- An environment whose validator reports a missing key exactly for the model
named `"model-b"`. -/
def envC6 : Env :=
  { validate_environment := fun n =>
      if n = "model-b" then { missing_keys := ["SOME_API_KEY"], keys_in_environment := true }
      else { missing_keys := [], keys_in_environment := true },
    get_model_info := fun _ => Except.ok [],
    model_cost := [],
    similarity := fun _ _ => 0 }

/-- An environment whose metadata provider always throws. -/
def envC7 : Env :=
  { validate_environment := fun _ => { missing_keys := [], keys_in_environment := true },
    get_model_info := fun _ => Except.error (),
    model_cost := [],
    similarity := fun _ _ => 0 }

/-- An environment whose catalog holds exactly the key `"gpt-4"`. -/
def envC8 : Env :=
  { validate_environment := fun _ => { missing_keys := [], keys_in_environment := true },
    get_model_info := fun _ => Except.ok [],
    model_cost := ["gpt-4"],
    similarity := fun _ _ => 1 }

/-- The profile that `buildModel envOk "gpt-3.5-turbo" falseA true true`
evaluates to. -/
def weakWitnessModel : Model :=
  Model.mk
    { name := "gpt-3.5-turbo", edit_format := "whole", weak_model_name := none,
      use_repo_map := false, send_undo_reply := false, accepts_images := false }
    1024 [] WeakModel.noneW

/-- The profile that `buildModel envOk "gpt-4-0613" noneA true true` evaluates
to: the registry preset for `"gpt-4-0613"` with a distinct weak model. -/
def mainWitnessModel : Model :=
  Model.mk
    { name := "gpt-4-0613", edit_format := "diff",
      weak_model_name := some "gpt-3.5-turbo", use_repo_map := true,
      send_undo_reply := true, accepts_images := false }
    1024 [] (WeakModel.distinctW weakWitnessModel)

/-! ## Arithmetic bridge: rational truncation is natural division -/

lemma natFloor_mul_div (a k m : ℕ) :
    ⌊(a : ℚ) * ((k : ℚ) / (m : ℚ))⌋₊ = a * k / m := by
  rcases Nat.eq_zero_or_pos m with hm | hm
  · subst hm; simp
  · have h : (a : ℚ) * ((k : ℚ) / (m : ℚ)) = ((a * k : ℕ) : ℚ) / (m : ℕ) := by
      push_cast; ring
    rw [h, Nat.floor_div_nat, Nat.floor_natCast]

lemma natFloor_scale_2048 (a m : ℕ) :
    ⌊(a : ℚ) * ((2048 : ℚ) / (m : ℚ))⌋₊ = a * 2048 / m := by
  have h := natFloor_mul_div a 2048 m
  simpa using h

lemma natFloor_scale_768 (a m : ℕ) :
    ⌊(a : ℚ) * ((768 : ℚ) / (m : ℚ))⌋₊ = a * 768 / m := by
  have h := natFloor_mul_div a 768 m
  simpa using h

lemma natCeil_div_512 (a : ℕ) : ⌈(a : ℚ) / 512⌉₊ = (a + 511) / 512 := by
  have h512 : (0 : ℚ) < 512 := by norm_num
  apply le_antisymm
  · apply Nat.ceil_le.mpr
    rw [div_le_iff h512]
    have h : a ≤ (a + 511) / 512 * 512 := by omega
    exact_mod_cast h
  · have h1 : (a : ℚ) / 512 ≤ (⌈(a : ℚ) / 512⌉₊ : ℚ) := Nat.le_ceil _
    rw [div_le_iff h512] at h1
    have h2 : a ≤ ⌈(a : ℚ) / 512⌉₊ * 512 := by exact_mod_cast h1
    omega

lemma scale_step_one_fst (width height : ℕ) :
    (scale_step_one width height).1 =
      if 2048 < max width height then width * 2048 / max width height else width := by
  unfold scale_step_one
  split <;> rfl

lemma scale_step_one_snd (width height : ℕ) :
    (scale_step_one width height).2 =
      if 2048 < max width height then height * 2048 / max width height else height := by
  unfold scale_step_one
  split <;> rfl

lemma token_count_eq (width height : ℕ) :
    token_count_for_image width height = image_token_cost width height := by
  unfold token_count_for_image image_token_cost
  simp only [scale_step_one_fst, scale_step_one_snd, natFloor_scale_2048,
    natFloor_scale_768, natCeil_div_512]

/-! ## Claims about the image token cost estimator (C1, C2, C10) -/

/-- C1: for every pair of dimensions, `token_count_for_image` computes the cost
by the four-step formula of spec section 4.4 (downscale into 2048 with
truncation, rescale the shorter side to 768 with truncation, count 512-pixel
tiles, 170 per tile plus 85); in particular it yields 765 at (2048, 2048) and
1105 at (4096, 2048). -/
theorem claim1_image_cost_formula :
    (∀ width height : ℕ,
      token_count_for_image width height = image_token_cost width height) ∧
    token_count_for_image 2048 2048 = some 765 ∧
    token_count_for_image 4096 2048 = some 1105 :=
  ⟨token_count_eq,
   by rw [token_count_eq]; decide,
   by rw [token_count_eq]; decide⟩

/-- C2 counterexample: the claim states that `token_count_for_image` returns an
integer without raising for every positive pair of dimensions, but at
width = 1, height = 4096 step 1 truncates the width to `int(1 * (2048/4096)) = 0`,
so step 2 divides 768 by `min(0, 2048) = 0` and Python raises
`ZeroDivisionError`; the embedding returns `none` there, not an integer. -/
theorem claim2_counterexample : token_count_for_image 1 4096 = none := by
  rw [token_count_eq]; decide

/-- C2 (amended): for every pair of dimensions such that the truncated
dimensions after the 2048 downscale step are both positive, the computation is
total and returns an integer; only the collapse of a dimension to zero in step
1 makes the step-2 division ill-defined. -/
theorem claim2_amended_total_when_scaled_positive (width height : ℕ)
    (h : 0 < min (scale_step_one width height).1 (scale_step_one width height).2) :
    ∃ n, token_count_for_image width height = some n := by
  rw [token_count_eq]
  unfold image_token_cost
  simp only []
  rw [if_neg h.ne']
  exact ⟨_, rfl⟩

/-- Witness for the amended C2 at the concrete dimensions (2048, 2048). -/
theorem claim2_witness :
    0 < min (scale_step_one 2048 2048).1 (scale_step_one 2048 2048).2 ∧
    ∃ n, token_count_for_image 2048 2048 = some n :=
  ⟨by decide, claim2_amended_total_when_scaled_positive 2048 2048 (by decide)⟩

lemma image_cost_form (width height n : ℕ)
    (hn : image_token_cost width height = some n) :
    ∃ t : ℕ, n = 170 * t + 85 ∧ 4 ≤ t := by
  unfold image_token_cost at hn
  simp only [] at hn
  by_cases h0 : min (scale_step_one width height).1 (scale_step_one width height).2 = 0
  · rw [if_pos h0] at hn
    exact absurd hn (by simp)
  · rw [if_neg h0] at hn
    simp only [Option.some.injEq] at hn
    have hpos : 0 < min (scale_step_one width height).1 (scale_step_one width height).2 :=
      Nat.pos_of_ne_zero h0
    set w1 := (scale_step_one width height).1 with hw1
    set h1 := (scale_step_one width height).2 with hh1
    set d := min w1 h1 with hd
    have hw : 768 ≤ w1 * 768 / d := by
      have hle : d * 768 ≤ w1 * 768 :=
        Nat.mul_le_mul_right 768 (min_le_left _ _)
      calc 768 = d * 768 / d := by rw [Nat.mul_div_cancel_left 768 hpos]
        _ ≤ w1 * 768 / d := Nat.div_le_div_right hle
    have hh : 768 ≤ h1 * 768 / d := by
      have hle : d * 768 ≤ h1 * 768 :=
        Nat.mul_le_mul_right 768 (min_le_right _ _)
      calc 768 = d * 768 / d := by rw [Nat.mul_div_cancel_left 768 hpos]
        _ ≤ h1 * 768 / d := Nat.div_le_div_right hle
    have htw : 2 ≤ (w1 * 768 / d + 511) / 512 := by omega
    have hth : 2 ≤ (h1 * 768 / d + 511) / 512 := by omega
    refine ⟨(w1 * 768 / d + 511) / 512 * ((h1 * 768 / d + 511) / 512), ?_, ?_⟩
    · have := hn
      omega
    · calc 4 = 2 * 2 := rfl
        _ ≤ (w1 * 768 / d + 511) / 512 * ((h1 * 768 / d + 511) / 512) :=
          Nat.mul_le_mul htw hth

/-- C10: whenever `token_count_for_image` is defined (the truncated dimensions
after the downscale step remain positive), the result has the form
`170 * t + 85` with at least `t = 4` tiles, hence is at least 765: step 2
rescales the shorter side to 768, so both dimensions cover at least two
512-pixel tiles. -/
theorem claim10_min_cost (width height n : ℕ)
    (hn : token_count_for_image width height = some n) :
    ∃ t : ℕ, n = 170 * t + 85 ∧ 4 ≤ t ∧ 765 ≤ n := by
  rw [token_count_eq] at hn
  obtain ⟨t, ht, h4⟩ := image_cost_form width height n hn
  exact ⟨t, ht, h4, by omega⟩

/-- Witness for C10 at the concrete dimensions (2048, 2048), cost 765. -/
theorem claim10_witness :
    ∃ t : ℕ, 765 = 170 * t + 85 ∧ 4 ≤ t ∧ 765 ≤ 765 :=
  claim10_min_cost 2048 2048 765 (by rw [token_count_eq]; decide)

/-! ## Claims about the settings cascade (C3, C9) -/

lemma find_unique (ms : ModelSettings) (hms : ms ∈ MODEL_SETTINGS) :
    MODEL_SETTINGS.find? (fun x => ms.name == x.name) = some ms := by
  revert ms
  decide

lemma findNoneOfPatterns (model : String)
    (h1 : strContains model "llama3" = true)
    (h3 : strContains model "gpt-4-turbo" = true ∨
      (strContains model "gpt-4-" = true ∧ strContains model "-preview" = true)) :
    MODEL_SETTINGS.find? (fun x => model == x.name) = none := by
  rw [List.find?_eq_none]
  intro ms hms
  simp only [ MODEL_SETTINGS, List.mem_cons, List.not_mem_nil, or_false] at hms
  rcases hms with rfl | rfl | rfl | rfl | rfl | rfl | rfl | rfl | rfl | rfl | rfl |
    rfl | rfl | rfl | rfl
  all_goals simp only [beq_iff_eq]
  all_goals rintro rfl
  all_goals first
    | exact absurd h1 (by decide)
    | (rcases h3 with h | ⟨h, h4⟩ <;> exact absurd h (by decide))

/-- C3: the settings resolution is an ordered cascade with first match winning:
an exact registry key copies every preset field verbatim (so the result is the
registry entry itself, whatever state the cascade started from), and a name
matching both the rule-2 pattern (contains "llama3" and "70b") and the rule-3
pattern (contains "gpt-4-turbo", or "gpt-4-" and "-preview") takes rule 2's
outcome, `edit_format = "diff"`, not `"udiff"`. -/
theorem claim3_settings_cascade :
    (∀ ms ∈ MODEL_SETTINGS, ∀ s : ModelSettings,
      configure_model_settings s ms.name = ms) ∧
    (∀ (model : String) (s : ModelSettings),
      strContains model "llama3" = true → strContains model "70b" = true →
      (strContains model "gpt-4-turbo" = true ∨
        (strContains model "gpt-4-" = true ∧ strContains model "-preview" = true)) →
      configure_model_settings s model =
        { s with edit_format := "diff", use_repo_map := true, send_undo_reply := true }) := by
  constructor
  · intro ms hms s
    unfold configure_model_settings
    rw [find_unique ms hms]
  · intro model s h1 h2 h3
    unfold configure_model_settings
    rw [findNoneOfPatterns model h1 h3]
    simp only [h1, h2, Bool.and_self, if_true]

/-- Witness for C3: the exact registry key "gpt-4-turbo" reproduces its preset
(with `edit_format = "udiff"`), while the contrived name
"llama3-70b-gpt-4-turbo", which matches both substring rules, takes rule 2's
`edit_format = "diff"`. -/
theorem claim3_witness :
    configure_model_settings (defaultSettings "gpt-4-turbo") "gpt-4-turbo" =
      { name := "gpt-4-turbo", edit_format := "udiff",
        weak_model_name := some "gpt-3.5-turbo", use_repo_map := true,
        send_undo_reply := true, accepts_images := true } ∧
    configure_model_settings (defaultSettings "llama3-70b-gpt-4-turbo")
        "llama3-70b-gpt-4-turbo" =
      { (defaultSettings "llama3-70b-gpt-4-turbo") with
        edit_format := "diff", use_repo_map := true, send_undo_reply := true } :=
  ⟨claim3_settings_cascade.1
      { name := "gpt-4-turbo", edit_format := "udiff",
        weak_model_name := some "gpt-3.5-turbo", use_repo_map := true,
        send_undo_reply := true, accepts_images := true }
      (by decide) (defaultSettings "gpt-4-turbo"),
   claim3_settings_cascade.2 "llama3-70b-gpt-4-turbo"
      (defaultSettings "llama3-70b-gpt-4-turbo")
      (by decide) (by decide) (Or.inl (by decide))⟩

/-- C9: the defensive rule in the no-match branch is dead code under the class
defaults: starting from the default state (whose `edit_format` is `"whole"`,
not `"diff"`), the cascade with the defensive rule agrees everywhere with the
cascade without it, so the guarded `use_repo_map := true` assignment is never
executed. -/
theorem claim9_defensive_rule_dead :
    ∀ model : String,
      configure_model_settings (defaultSettings model) model =
        configureNoDefensive (defaultSettings model) model ∧
      (defaultSettings model).edit_format = "whole" := by
  intro model
  refine ⟨?_, rfl⟩
  unfold configure_model_settings configureNoDefensive
  cases hf : MODEL_SETTINGS.find? (fun ms => model == ms.name) with
  | some ms => rfl
  | none =>
    split
    · rfl
    · split
      · rfl
      · split
        · rfl
        · rfl

/-! ## Unrolling the recursive construction -/

lemma buildModel_falseA (env : Env) (model : String) (ri ve : Bool) :
    buildModel env model WeakArg.falseA ri ve = buildModelNoWeak env model ri ve := by
  unfold buildModel buildModelNoWeak
  rfl

lemma buildModel_eq_exp (env : Env) (model : String) (weakArg : WeakArg)
    (ri ve : Bool) :
    buildModel env model weakArg ri ve = buildModelExp env model weakArg ri ve := by
  unfold buildModel buildModelExp weakPhase
  simp only [buildModel_falseA]
  cases weakArg <;> rfl

/-! ## Claims about weak-model resolution (C4, C5) -/

lemma weakTarget_eq (model : String) (weakArg : WeakArg)
    (h : weakArg ≠ WeakArg.falseA) :
    weakTarget model weakArg =
      normWeak model
        (overrideWeak (configure_model_settings (defaultSettings model) model)
          weakArg).weak_model_name := by
  cases weakArg with
  | falseA => exact absurd rfl h
  | noneA => rfl
  | nameA p => rfl

lemma buildModelNoWeak_ok (env : Env) (model : String) (ri ve : Bool) (b : Model)
    (hok : buildModelNoWeak env model ri ve = Except.ok b) :
    b.weak_model = WeakModel.noneW ∧ b.weak_model_name = none := by
  unfold buildModelNoWeak at hok
  by_cases h1 : (env.validate_environment model).missing_keys ≠ [] ∧ ve = true
  · rw [if_pos h1] at hok
    exact absurd hok (by simp)
  · rw [if_neg h1] at hok
    by_cases h2 : exceptIsErr (env.get_model_info model) = true ∧ ri = true
    · rw [if_pos h2] at hok
      exact absurd hok (by simp)
    · rw [if_neg h2] at hok
      simp only [Except.ok.injEq] at hok
      subst hok
      exact ⟨rfl, rfl⟩

lemma weakPhase_ok (env : Env) (model : String) (weakArg : WeakArg) (ri : Bool)
    (info : List (String × Nat)) (s1 : ModelSettings) (m : Model)
    (hok : weakPhase env model weakArg ri info s1 = Except.ok m) :
    (weakArg = WeakArg.falseA →
      m.settings = { s1 with weak_model_name := none } ∧
      m.weak_model = WeakModel.noneW) ∧
    (weakArg ≠ WeakArg.falseA → m.settings = s1) ∧
    (weakArg ≠ WeakArg.falseA → normWeak model s1.weak_model_name = none →
      m.weak_model = WeakModel.selfW) ∧
    (∀ w, weakArg ≠ WeakArg.falseA → normWeak model s1.weak_model_name = some w →
      ∃ b, buildModelNoWeak env w ri true = Except.ok b ∧
        m.weak_model = WeakModel.distinctW b) ∧
    (∀ b, m.weak_model = WeakModel.distinctW b →
      ∃ w, normWeak model s1.weak_model_name = some w ∧
        buildModelNoWeak env w ri true = Except.ok b) := by
  unfold weakPhase at hok
  by_cases hf : weakArg = WeakArg.falseA
  · rw [if_pos hf] at hok
    simp only [Except.ok.injEq] at hok
    subst hok
    refine ⟨fun _ => ⟨rfl, rfl⟩, fun hne => absurd hf hne, fun hne _ => absurd hf hne,
      fun w hne _ => absurd hf hne, fun b hb => ?_⟩
    exact absurd hb (by simp [Model.weak_model])
  · rw [if_neg hf] at hok
    cases hw : s1.weak_model_name with
    | none =>
      simp only [hw] at hok
      simp only [Except.ok.injEq] at hok
      subst hok
      refine ⟨fun hfa => absurd hfa hf, fun _ => rfl, fun _ _ => rfl,
        fun w _ hsome => ?_, fun b hb => ?_⟩
      · exact absurd hsome (by simp [normWeak])
      · exact absurd hb (by simp [Model.weak_model])
    | some w =>
      simp only [hw] at hok
      by_cases hww : w = ""
      · rw [if_pos hww] at hok
        have hnw : normWeak model (some w) = none := by simp [normWeak, hww]
        simp only [Except.ok.injEq] at hok
        subst hok
        refine ⟨fun hfa => absurd hfa hf, fun _ => rfl, fun _ _ => rfl,
          fun w2 _ hsome => ?_, fun b hb => ?_⟩
        · rw [hnw] at hsome
          exact absurd hsome (by simp)
        · exact absurd hb (by simp [Model.weak_model])
      · rw [if_neg hww] at hok
        by_cases hwm : w = model
        · rw [if_pos hwm] at hok
          have hnw : normWeak model (some w) = none := by simp [normWeak, hww, hwm]
          simp only [Except.ok.injEq] at hok
          subst hok
          refine ⟨fun hfa => absurd hfa hf, fun _ => rfl, fun _ _ => rfl,
            fun w2 _ hsome => ?_, fun b hb => ?_⟩
          · rw [hnw] at hsome
            exact absurd hsome (by simp)
          · exact absurd hb (by simp [Model.weak_model])
        · rw [if_neg hwm] at hok
          have hnw : normWeak model (some w) = some w := by simp [normWeak, hww, hwm]
          cases hb2 : buildModelNoWeak env w ri true with
          | error e =>
            rw [hb2] at hok
            exact absurd hok (by simp)
          | ok b2 =>
            rw [hb2] at hok
            simp only [Except.ok.injEq] at hok
            subst hok
            refine ⟨fun hfa => absurd hfa hf, fun _ => rfl, fun _ hnone => ?_,
              fun w2 _ hsome => ?_, fun b hb => ?_⟩
            · rw [hnw] at hnone
              exact absurd hnone (by simp)
            · rw [hnw] at hsome
              simp only [Option.some.injEq] at hsome
              subst hsome
              exact ⟨b2, hb2, rfl⟩
            · simp only [Model.weak_model, WeakModel.distinctW.injEq] at hb
              subst hb
              exact ⟨w, hnw, hb2⟩

/-- C4: weak-model resolution follows spec 4.2 step 5.  If the caller passed
`weak_model=False`, the profile's `weak_model_name` is none and its weak link
is the class default.  A truthy explicitly supplied weak-model name overrides
`weak_model_name`.  If the (possibly overridden) name is falsy or equal to the
model's own name (encoded by `weakTarget _ _ = none` for a non-`False`
argument), the profile is its own weak model — the tagged self-reference, not
a distinct instance.  Otherwise a distinct profile is recursively resolved for
that name with `weak_model=False` and the same `require_model_info` flag. -/
theorem claim4_weak_resolution (env : Env) (model : String) (weakArg : WeakArg)
    (ri ve : Bool) (m : Model)
    (hok : buildModel env model weakArg ri ve = Except.ok m) :
    (weakArg = WeakArg.falseA →
      m.weak_model_name = none ∧ m.weak_model = WeakModel.noneW) ∧
    (∀ p, weakArg = WeakArg.nameA p → p ≠ "" → m.weak_model_name = some p) ∧
    (weakArg ≠ WeakArg.falseA → weakTarget model weakArg = none →
      m.weak_model = WeakModel.selfW) ∧
    (∀ w, weakTarget model weakArg = some w →
      ∃ b, buildModel env w WeakArg.falseA ri true = Except.ok b ∧
        m.weak_model = WeakModel.distinctW b) := by
  rw [buildModel_eq_exp] at hok
  unfold buildModelExp at hok
  split at hok
  · exact absurd hok (by simp)
  · split at hok
    · exact absurd hok (by simp)
    · have hx := weakPhase_ok env model weakArg ri
        (infoOf (env.get_model_info model))
        (overrideWeak (configure_model_settings (defaultSettings model) model) weakArg)
        m hok
      refine ⟨?_, ?_, ?_, ?_⟩
      · intro hfa
        obtain ⟨hs, hwm⟩ := hx.1 hfa
        refine ⟨?_, hwm⟩
        rw [Model.weak_model_name, hs]
      · intro p hp hpne
        have hne : weakArg ≠ WeakArg.falseA := by subst hp; simp
        have hs := hx.2.1 hne
        rw [Model.weak_model_name, hs, hp]
        simp [overrideWeak, hpne]
      · intro hne htgt
        rw [weakTarget_eq model weakArg hne] at htgt
        exact hx.2.2.1 hne htgt
      · intro w htgt
        have hne : weakArg ≠ WeakArg.falseA := by
          intro hfa
          rw [hfa] at htgt
          exact absurd htgt (by simp [weakTarget])
        rw [weakTarget_eq model weakArg hne] at htgt
        obtain ⟨b, hb, hwm⟩ := hx.2.2.2.1 w hne htgt
        exact ⟨b, by rw [buildModel_falseA]; exact hb, hwm⟩

/-- Witness for C4: in a benign environment, resolving "gpt-4-0613" (registry
weak model "gpt-3.5-turbo") yields a distinct recursively resolved weak
profile. -/
theorem claim4_witness :
    ∃ m b, buildModel envOk "gpt-4-0613" WeakArg.noneA true true = Except.ok m ∧
      m.weak_model_name = some "gpt-3.5-turbo" ∧
      buildModel envOk "gpt-3.5-turbo" WeakArg.falseA true true = Except.ok b ∧
      m.weak_model = WeakModel.distinctW b := by
  have hok : buildModel envOk "gpt-4-0613" WeakArg.noneA true true =
      Except.ok mainWitnessModel := by
    rw [buildModel_eq_exp]; rfl
  have hx := claim4_weak_resolution envOk "gpt-4-0613" WeakArg.noneA true true
    mainWitnessModel hok
  obtain ⟨b, hb, hwm⟩ := hx.2.2.2 "gpt-3.5-turbo" (by decide)
  exact ⟨mainWitnessModel, b, hok, rfl, hb, hwm⟩

/-- C5: weak-model resolution depth is exactly one: whenever a resolved model
carries a distinct weak profile, that profile was built with recursion
suppressed, so its own weak link is the class default (no further weak model,
distinct or otherwise). -/
theorem claim5_weak_depth_one (env : Env) (model : String) (weakArg : WeakArg)
    (ri ve : Bool) (m b : Model)
    (hok : buildModel env model weakArg ri ve = Except.ok m)
    (hb : m.weak_model = WeakModel.distinctW b) :
    b.weak_model = WeakModel.noneW ∧ b.weak_model_name = none := by
  rw [buildModel_eq_exp] at hok
  unfold buildModelExp at hok
  split at hok
  · exact absurd hok (by simp)
  · split at hok
    · exact absurd hok (by simp)
    · have hx := weakPhase_ok env model weakArg ri
        (infoOf (env.get_model_info model))
        (overrideWeak (configure_model_settings (defaultSettings model) model) weakArg)
        m hok
      obtain ⟨w, _, hbw⟩ := hx.2.2.2.2 b hb
      exact buildModelNoWeak_ok env w ri true b hbw

/-- Witness for C5: the distinct weak profile of "gpt-4-0613" in a benign
environment carries no further weak model. -/
theorem claim5_witness :
    weakWitnessModel.weak_model = WeakModel.noneW ∧
    weakWitnessModel.weak_model_name = none := by
  have hok : buildModel envOk "gpt-4-0613" WeakArg.noneA true true =
      Except.ok mainWitnessModel := by
    rw [buildModel_eq_exp]; rfl
  exact claim5_weak_depth_one envOk "gpt-4-0613" WeakArg.noneA true true
    mainWitnessModel weakWitnessModel hok rfl

/-! ## Claims about raised errors (C6, C7) -/

lemma toList_append (s t : String) : (s ++ t).toList = s.toList ++ t.toList := by
  cases s
  cases t
  rfl

lemma isPrefixOfL_self_append (l r : List Char) : isPrefixOfL l (l ++ r) = true := by
  induction l with
  | nil => rfl
  | cons c cs ih => simp [isPrefixOfL, ih]

lemma containsSub_nil_pat (l : List Char) : containsSub [] l = true := by
  cases l <;> rfl

lemma containsSub_self_append (pat r : List Char) :
    containsSub pat (pat ++ r) = true := by
  cases pat with
  | nil => exact containsSub_nil_pat _
  | cons p ps =>
    simp only [List.cons_append, containsSub, Bool.or_eq_true]
    exact Or.inl (isPrefixOfL_self_append (p :: ps) r)

lemma containsSub_self (pat : List Char) : containsSub pat pat = true := by
  have h := containsSub_self_append pat []
  simpa using h

lemma containsSub_append_left (pat l r : List Char)
    (h : containsSub pat r = true) : containsSub pat (l ++ r) = true := by
  induction l with
  | nil => exact h
  | cons c t ih => simp [containsSub, ih]

lemma isPrefixOfL_append_right (pat : List Char) :
    ∀ l r, isPrefixOfL pat l = true → isPrefixOfL pat (l ++ r) = true := by
  induction pat with
  | nil => intro l r _; rfl
  | cons p ps ih =>
    intro l r h
    cases l with
    | nil => exact absurd h (by simp [isPrefixOfL])
    | cons c t =>
      simp only [isPrefixOfL, Bool.and_eq_true] at h
      simp only [List.cons_append, isPrefixOfL, Bool.and_eq_true]
      exact ⟨h.1, ih t r h.2⟩

lemma containsSub_append_right (pat : List Char) :
    ∀ l r, containsSub pat l = true → containsSub pat (l ++ r) = true := by
  intro l
  induction l with
  | nil =>
    intro r h
    cases pat with
    | nil => exact containsSub_nil_pat _
    | cons p ps => exact absurd h (by simp [containsSub, isPrefixOfL])
  | cons c t ih =>
    intro r h
    simp only [containsSub, Bool.or_eq_true] at h
    simp only [List.cons_append, containsSub, Bool.or_eq_true]
    rcases h with h | h
    · exact Or.inl (isPrefixOfL_append_right pat (c :: t) r h)
    · exact Or.inr (ih r h)

lemma strContains_mono_right (hay k ext : String)
    (h : strContains hay k = true) : strContains (hay ++ ext) k = true := by
  unfold strContains at h ⊢
  rw [toList_append]
  exact containsSub_append_right _ _ _ h

lemma strContains_foldl_mono (rest : List String) :
    ∀ (acc k : String), strContains acc k = true →
      strContains (List.foldl (fun r key => r ++ "- " ++ key) acc rest) k = true := by
  induction rest with
  | nil => intro acc k h; exact h
  | cons key tail ih =>
    intro acc k h
    simp only [List.foldl_cons]
    exact ih _ k (strContains_mono_right _ k key (strContains_mono_right acc k "- " h))

lemma foldl_contains_key (keys : List String) :
    ∀ (acc k : String), k ∈ keys →
      strContains (List.foldl (fun r key => r ++ "- " ++ key) acc keys) k = true := by
  induction keys with
  | nil => intro acc k hk; exact absurd hk (by simp)
  | cons key rest ih =>
    intro acc k hk
    simp only [List.foldl_cons]
    rcases List.mem_cons.mp hk with rfl | hk2
    · refine strContains_foldl_mono rest _ k ?_
      unfold strContains
      rw [toList_append]
      exact containsSub_append_left _ _ _ (containsSub_self _)
    · exact ih _ k hk2

lemma envErrMsg_contains (model : String) (keys : List String) (k : String)
    (hk : k ∈ keys) : strContains (envErrMsg model keys) k = true := by
  unfold envErrMsg
  exact foldl_contains_key keys _ k hk

lemma isEnvMissing_noWeak (env : Env) (w : String) (ri : Bool) :
    isEnvMissing (buildModelNoWeak env w ri true) = true ↔
      (env.validate_environment w).missing_keys ≠ [] := by
  unfold buildModelNoWeak
  by_cases h1 : (env.validate_environment w).missing_keys ≠ []
  · rw [if_pos ⟨h1, rfl⟩]
    simp [isEnvMissing, h1]
  · rw [if_neg (fun hc => h1 hc.1)]
    by_cases h2 : exceptIsErr (env.get_model_info w) = true ∧ ri = true
    · rw [if_pos h2]
      simp [isEnvMissing, h1]
    · rw [if_neg h2]
      simp [isEnvMissing, h1]

lemma noWeak_no_noModelInfo (env : Env) (w : String) (ri : Bool) (ve : Bool)
    (hri : ri = false) (msg : String) :
    buildModelNoWeak env w ri ve ≠ Except.error (ModelError.noModelInfo msg) := by
  unfold buildModelNoWeak
  by_cases h1 : (env.validate_environment w).missing_keys ≠ [] ∧ ve = true
  · rw [if_pos h1]
    simp
  · rw [if_neg h1, if_neg (by simp [hri])]
    simp

lemma weakPhase_match_isEnvMissing (env : Env) (model w : String) (ri : Bool)
    (info : List (String × Nat)) (s1 : ModelSettings) :
    isEnvMissing (match buildModelNoWeak env w ri true with
      | Except.error e => Except.error e
      | Except.ok wm =>
        Except.ok (Model.mk s1 (maxChatTokens info) info (WeakModel.distinctW wm))) =
    isEnvMissing (buildModelNoWeak env w ri true) := by
  cases buildModelNoWeak env w ri true <;> rfl

lemma isEnvMissing_weakPhase (env : Env) (model : String) (weakArg : WeakArg)
    (ri : Bool) (info : List (String × Nat)) (s1 : ModelSettings) :
    isEnvMissing (weakPhase env model weakArg ri info s1) = true ↔
      (weakArg ≠ WeakArg.falseA ∧ ∃ w, normWeak model s1.weak_model_name = some w ∧
        (env.validate_environment w).missing_keys ≠ []) := by
  unfold weakPhase
  by_cases hf : weakArg = WeakArg.falseA
  · rw [if_pos hf]
    simp [isEnvMissing, hf]
  · rw [if_neg hf]
    cases hw : s1.weak_model_name with
    | none =>
      simp only [hw]
      simp [isEnvMissing, normWeak, hf]
    | some w =>
      simp only [hw]
      by_cases hww : w = ""
      · rw [if_pos hww]
        simp [isEnvMissing, normWeak, hww, hf]
      · rw [if_neg hww]
        by_cases hwm : w = model
        · rw [if_pos hwm]
          simp [isEnvMissing, normWeak, hww, hwm, hf]
        · rw [if_neg hwm]
          have hnw : normWeak model (some w) = some w := by simp [normWeak, hww, hwm]
          rw [weakPhase_match_isEnvMissing env model w ri info s1,
            isEnvMissing_noWeak]
          simp [hnw, hf]

lemma weakTarget_some_iff (model : String) (weakArg : WeakArg) (w : String) :
    weakTarget model weakArg = some w ↔
      (weakArg ≠ WeakArg.falseA ∧
        normWeak model
          (overrideWeak (configure_model_settings (defaultSettings model) model)
            weakArg).weak_model_name = some w) := by
  cases weakArg <;> simp [weakTarget]

/-- C6 counterexample: the claim says `EnvironmentMissing` is raised iff
`validate_environment` is true and the validator reports a missing key, but
here construction is called with `validate_environment = false`, the validator
reports no missing key for the requested model `"model-a"`, and construction
still raises `EnvironmentMissing`: the recursive weak-model construction for
`"model-b"` is issued with the default `validate_environment=True` and that
model's key is missing. -/
theorem claim6_counterexample :
    isEnvMissing (buildModel envC6 "model-a" (WeakArg.nameA "model-b") false false)
      = true ∧
    (envC6.validate_environment "model-a").missing_keys = [] := by
  constructor
  · rw [buildModel_eq_exp]
    rfl
  · rfl

/-- C6 (amended): construction raises `EnvironmentMissing` iff either
validation was requested and the validator reports a missing key for the
model, or construction passes its own environment and metadata steps and
recursively constructs a distinct weak model whose validator reports a missing
key (the recursive construction always validates, regardless of the caller's
`validate_environment`).  When validation is requested and keys are missing,
the raised message is exactly the source's accumulation, which contains every
missing key in reported order. -/
theorem claim6_amended_env_missing_iff (env : Env) (model : String)
    (weakArg : WeakArg) (ri ve : Bool) :
    (isEnvMissing (buildModel env model weakArg ri ve) = true ↔
      ((env.validate_environment model).missing_keys ≠ [] ∧ ve = true) ∨
      (¬((env.validate_environment model).missing_keys ≠ [] ∧ ve = true) ∧
       ¬(exceptIsErr (env.get_model_info model) = true ∧ ri = true) ∧
       ∃ w, weakTarget model weakArg = some w ∧
         (env.validate_environment w).missing_keys ≠ [])) ∧
    (ve = true → (env.validate_environment model).missing_keys ≠ [] →
      buildModel env model weakArg ri ve =
        Except.error (ModelError.environmentMissing
          (envErrMsg model (env.validate_environment model).missing_keys))) ∧
    (∀ k ∈ (env.validate_environment model).missing_keys,
      strContains (envErrMsg model (env.validate_environment model).missing_keys)
        k = true) := by
  refine ⟨?_, ?_, ?_⟩
  · rw [buildModel_eq_exp]
    unfold buildModelExp
    by_cases h1 : (env.validate_environment model).missing_keys ≠ [] ∧ ve = true
    · rw [if_pos h1]
      simp [isEnvMissing, h1]
    · rw [if_neg h1]
      by_cases h2 : exceptIsErr (env.get_model_info model) = true ∧ ri = true
      · rw [if_pos h2]
        simp [isEnvMissing, h1, h2]
      · rw [if_neg h2]
        rw [isEnvMissing_weakPhase]
        constructor
        · rintro ⟨hne, w, hnw, hmiss⟩
          exact Or.inr ⟨h1, h2, w, (weakTarget_some_iff model weakArg w).mpr
            ⟨hne, hnw⟩, hmiss⟩
        · rintro (hfirst | ⟨_, _, w, htgt, hmiss⟩)
          · exact absurd hfirst h1
          · obtain ⟨hne, hnw⟩ := (weakTarget_some_iff model weakArg w).mp htgt
            exact ⟨hne, w, hnw, hmiss⟩
  · intro hve hmiss
    rw [buildModel_eq_exp]
    unfold buildModelExp
    rw [if_pos ⟨hmiss, hve⟩]
  · intro k hk
    exact envErrMsg_contains model _ k hk

/-- Witness for the amended C6: validation requested for `"model-b"` whose key
is missing raises, and the message contains the missing key. -/
theorem claim6_witness :
    isEnvMissing (buildModel envC6 "model-b" WeakArg.noneA true true) = true ∧
    strContains (envErrMsg "model-b" (envC6.validate_environment "model-b").missing_keys)
      "SOME_API_KEY" = true :=
  ⟨(claim6_amended_env_missing_iff envC6 "model-b" WeakArg.noneA true true).1.mpr
      (Or.inl ⟨by decide, rfl⟩),
   (claim6_amended_env_missing_iff envC6 "model-b" WeakArg.noneA true true).2.2
      "SOME_API_KEY" (by decide)⟩

lemma weakPhase_info (env : Env) (model : String) (weakArg : WeakArg) (ri : Bool)
    (info : List (String × Nat)) (s1 : ModelSettings) (m : Model)
    (hok : weakPhase env model weakArg ri info s1 = Except.ok m) :
    m.info = info := by
  unfold weakPhase at hok
  by_cases hf : weakArg = WeakArg.falseA
  · rw [if_pos hf] at hok
    simp only [Except.ok.injEq] at hok
    subst hok
    rfl
  · rw [if_neg hf] at hok
    cases hw : s1.weak_model_name with
    | none =>
      simp only [hw] at hok
      simp only [Except.ok.injEq] at hok
      subst hok
      rfl
    | some w =>
      simp only [hw] at hok
      by_cases hww : w = ""
      · rw [if_pos hww] at hok
        simp only [Except.ok.injEq] at hok
        subst hok
        rfl
      · rw [if_neg hww] at hok
        by_cases hwm : w = model
        · rw [if_pos hwm] at hok
          simp only [Except.ok.injEq] at hok
          subst hok
          rfl
        · rw [if_neg hwm] at hok
          cases hb : buildModelNoWeak env w ri true with
          | error e =>
            rw [hb] at hok
            exact absurd hok (by simp)
          | ok b2 =>
            rw [hb] at hok
            simp only [Except.ok.injEq] at hok
            subst hok
            rfl

lemma weakPhase_no_noModelInfo (env : Env) (model : String) (weakArg : WeakArg)
    (ri : Bool) (info : List (String × Nat)) (s1 : ModelSettings)
    (hri : ri = false) (msg : String) :
    weakPhase env model weakArg ri info s1 ≠
      Except.error (ModelError.noModelInfo msg) := by
  unfold weakPhase
  by_cases hf : weakArg = WeakArg.falseA
  · rw [if_pos hf]
    simp
  · rw [if_neg hf]
    cases hw : s1.weak_model_name with
    | none =>
      simp only [hw]
      simp
    | some w =>
      simp only [hw]
      by_cases hww : w = ""
      · rw [if_pos hww]
        simp
      · rw [if_neg hww]
        by_cases hwm : w = model
        · rw [if_pos hwm]
          simp
        · rw [if_neg hwm]
          cases hb : buildModelNoWeak env w ri true with
          | error e =>
            intro hcontr
            simp only [Except.error.injEq] at hcontr
            subst hcontr
            exact noWeak_no_noModelInfo env w ri true hri msg hb
          | ok b2 =>
            simp

/-- C7: an exception from the metadata provider's `get_model_info` is caught,
never propagated raw: when the environment step passes, a failing lookup with
`require_model_info` true makes construction fail with `NoModelInfo` (carrying
the fuzzy-suggestion message), and with `require_model_info` false resolution
proceeds with the empty metadata bag — a successful construction carries
`info = []` and construction can never fail with `NoModelInfo`. -/
theorem claim7_info_errors_translated (env : Env) (model : String)
    (weakArg : WeakArg) (ri ve : Bool)
    (henv : ¬((env.validate_environment model).missing_keys ≠ [] ∧ ve = true))
    (hinfo : env.get_model_info model = Except.error ()) :
    (ri = true → buildModel env model weakArg ri ve =
      Except.error (ModelError.noModelInfo (check_model_name env model))) ∧
    (ri = false →
      (∀ m, buildModel env model weakArg ri ve = Except.ok m → m.info = []) ∧
      (∀ msg, buildModel env model weakArg ri ve ≠
        Except.error (ModelError.noModelInfo msg))) := by
  constructor
  · intro hri
    rw [buildModel_eq_exp]
    unfold buildModelExp
    rw [if_neg henv, if_pos ⟨by rw [hinfo]; rfl, hri⟩]
  · intro hri
    constructor
    · intro m hok
      rw [buildModel_eq_exp] at hok
      unfold buildModelExp at hok
      rw [if_neg henv, if_neg (by simp [hri])] at hok
      rw [hinfo] at hok
      exact weakPhase_info env model weakArg ri _ _ m hok
    · intro msg
      rw [buildModel_eq_exp]
      unfold buildModelExp
      rw [if_neg henv, if_neg (by simp [hri])]
      exact weakPhase_no_noModelInfo env model weakArg ri _ _ hri msg

/-- Witness for C7: with an always-throwing metadata provider and
`require_model_info` true, construction fails with `NoModelInfo`. -/
theorem claim7_witness :
    buildModel envC7 "some-model" WeakArg.noneA true true =
      Except.error (ModelError.noModelInfo (check_model_name envC7 "some-model")) :=
  (claim7_info_errors_translated envC7 "some-model" WeakArg.noneA true true
    (by decide) rfl).1 rfl

/-! ## Claims about the fuzzy name matcher (C8) -/

lemma pairLt_asymm (x y : ℚ × String) (h : pairLt x y = true) :
    pairLt y x = false := by
  simp only [pairLt, decide_eq_true_eq] at h
  simp only [pairLt, decide_eq_false_iff_not, not_or, not_and]
  rcases h with h | ⟨heq, hlt⟩
  · exact ⟨not_lt.mpr (le_of_lt h), fun he => absurd (he ▸ h) (lt_irrefl _)⟩
  · exact ⟨not_lt.mpr (le_of_eq heq), fun _ => not_lt.mpr (le_of_lt hlt)⟩

lemma pairLt_false_trans (x y z : ℚ × String)
    (h1 : pairLt x y = false) (h2 : pairLt y z = false) : pairLt x z = false := by
  simp only [pairLt, decide_eq_false_iff_not, not_or, not_and] at h1 h2 ⊢
  obtain ⟨h1a, h1b⟩ := h1
  obtain ⟨h2a, h2b⟩ := h2
  have hyx : y.1 ≤ x.1 := le_of_not_lt h1a
  have hzy : z.1 ≤ y.1 := le_of_not_lt h2a
  refine ⟨not_lt.mpr (le_trans hzy hyx), fun hxz => ?_⟩
  have hxy : x.1 = y.1 := le_antisymm ((le_of_eq hxz).trans hzy) hyx
  have hyz : y.1 = z.1 := hxy.symm.trans hxz
  exact not_lt.mpr (le_trans (not_lt.mp (h2b hyz)) (not_lt.mp (h1b hxy)))

lemma pairLt_not_lt_fst (x y : ℚ × String) (h : pairLt x y = false) :
    y.1 ≤ x.1 := by
  simp only [pairLt, decide_eq_false_iff_not, not_or] at h
  exact le_of_not_lt h.1

lemma mem_insertPairDesc (a x : ℚ × String) (l : List (ℚ × String)) :
    a ∈ insertPairDesc x l ↔ a = x ∨ a ∈ l := by
  induction l with
  | nil => simp [insertPairDesc]
  | cons y ys ih =>
    unfold insertPairDesc
    by_cases hxy : pairLt x y = true
    · rw [if_pos hxy]
      simp only [List.mem_cons, ih]
      tauto
    · rw [if_neg hxy]
      simp [List.mem_cons]

lemma descSorted_insert (x : ℚ × String) (l : List (ℚ × String))
    (h : l.Pairwise (fun a b => pairLt a b = false)) :
    (insertPairDesc x l).Pairwise (fun a b => pairLt a b = false) := by
  induction l with
  | nil => simp [insertPairDesc]
  | cons y ys ih =>
    rcases List.pairwise_cons.mp h with ⟨hy, hys⟩
    unfold insertPairDesc
    by_cases hxy : pairLt x y = true
    · rw [if_pos hxy]
      refine List.pairwise_cons.mpr ⟨?_, ih hys⟩
      intro a ha
      rcases (mem_insertPairDesc a x ys).mp ha with rfl | ha2
      · exact pairLt_asymm _ _ hxy
      · exact hy a ha2
    · rw [if_neg hxy]
      have hxyf : pairLt x y = false := by
        revert hxy
        cases pairLt x y <;> simp
      refine List.pairwise_cons.mpr ⟨?_, h⟩
      intro a ha
      rcases List.mem_cons.mp ha with rfl | ha2
      · exact hxyf
      · exact pairLt_false_trans x y a hxyf (hy a ha2)

lemma descSorted_sortPairsDesc (l : List (ℚ × String)) :
    (sortPairsDesc l).Pairwise (fun a b => pairLt a b = false) := by
  induction l with
  | nil => simp [sortPairsDesc]
  | cons x xs ih => exact descSorted_insert x (sortPairsDesc xs) ih

lemma mem_sortPairsDesc (a : ℚ × String) (l : List (ℚ × String)) :
    a ∈ sortPairsDesc l ↔ a ∈ l := by
  induction l with
  | nil => simp [sortPairsDesc]
  | cons x xs ih =>
    unfold sortPairsDesc
    rw [mem_insertPairDesc, ih, List.mem_cons]

lemma mem_sorted_scored_fst (env : Env) (word : String) (cutoff : ℚ)
    (p : ℚ × String)
    (hp : p ∈ sortPairsDesc
      ((env.model_cost.filter (fun x => cutoff ≤ env.similarity x word)).map
        (fun x => (env.similarity x word, x)))) :
    p.1 = env.similarity p.2 word := by
  rw [mem_sortPairsDesc] at hp
  simp only [List.mem_map] at hp
  obtain ⟨x, _, rfl⟩ := hp
  rfl

lemma gcm_length (env : Env) (word : String) (n : Nat) (cutoff : ℚ) :
    (get_close_matches env word n cutoff).length ≤ n := by
  unfold get_close_matches
  simp only [List.length_map, List.length_take]
  exact min_le_left _ _

lemma gcm_mem (env : Env) (word : String) (n : Nat) (cutoff : ℚ) (s : String)
    (hs : s ∈ get_close_matches env word n cutoff) :
    s ∈ env.model_cost ∧ cutoff ≤ env.similarity s word := by
  unfold get_close_matches at hs
  simp only [List.mem_map] at hs
  obtain ⟨p, hp, rfl⟩ := hs
  have hp2 := List.mem_of_mem_take hp
  rw [mem_sortPairsDesc] at hp2
  simp only [List.mem_map] at hp2
  obtain ⟨x, hx, rfl⟩ := hp2
  rw [List.mem_filter] at hx
  exact ⟨hx.1, by simpa using hx.2⟩

lemma gcm_sorted (env : Env) (word : String) (n : Nat) (cutoff : ℚ) :
    (get_close_matches env word n cutoff).Pairwise
      (fun a b => env.similarity b word ≤ env.similarity a word) := by
  unfold get_close_matches
  rw [List.pairwise_map]
  have htake := (descSorted_sortPairsDesc
    ((env.model_cost.filter (fun x => cutoff ≤ env.similarity x word)).map
      (fun x => (env.similarity x word, x)))).sublist (List.take_sublist n _)
  refine htake.imp_of_mem ?_
  intro a b ha hb hR
  have ha2 := mem_sorted_scored_fst env word cutoff a (List.mem_of_mem_take ha)
  have hb2 := mem_sorted_scored_fst env word cutoff b (List.mem_of_mem_take hb)
  have hle := pairLt_not_lt_fst a b hR
  rw [ha2, hb2] at hle
  exact hle

/-- C8: `fuzzy_match_models` returns exactly `[name]` on an exact catalog key;
otherwise all catalog keys containing `name` as a substring, in catalog order;
otherwise (no substring match) the close-match branch: at most 3 catalog keys,
each with similarity at least 0.8 to `name`, ordered by descending similarity,
possibly empty.  In particular, against a catalog holding `"gpt-4"` but not
`"gpt4"`, the query `"gpt4"` falls through to the cutoff branch and yields at
most 3 names. -/
theorem claim8_fuzzy_match (env : Env) (name : String) :
    (name ∈ env.model_cost → fuzzy_match_models env name = [name]) ∧
    (name ∉ env.model_cost →
      env.model_cost.filter (fun m => strContains m name) ≠ [] →
      fuzzy_match_models env name =
        env.model_cost.filter (fun m => strContains m name)) ∧
    (name ∉ env.model_cost →
      env.model_cost.filter (fun m => strContains m name) = [] →
      fuzzy_match_models env name = get_close_matches env name 3 (4 / 5) ∧
      (fuzzy_match_models env name).length ≤ 3 ∧
      (∀ s ∈ fuzzy_match_models env name,
        s ∈ env.model_cost ∧ (4 / 5 : ℚ) ≤ env.similarity s name) ∧
      (fuzzy_match_models env name).Pairwise
        (fun a b => env.similarity b name ≤ env.similarity a name)) ∧
    (env.model_cost = ["gpt-4"] → name = "gpt4" →
      fuzzy_match_models env name = get_close_matches env name 3 (4 / 5) ∧
      (fuzzy_match_models env name).length ≤ 3) := by
  refine ⟨?_, ?_, ?_, ?_⟩
  · intro h
    unfold fuzzy_match_models
    rw [if_pos h]
  · intro h hne
    unfold fuzzy_match_models
    rw [if_neg h, if_neg hne]
  · intro h hempty
    have heq : fuzzy_match_models env name = get_close_matches env name 3 (4 / 5) := by
      unfold fuzzy_match_models
      rw [if_neg h, if_pos hempty]
    refine ⟨heq, ?_, ?_, ?_⟩
    · rw [heq]
      exact gcm_length env name 3 (4 / 5)
    · intro s hs
      rw [heq] at hs
      exact gcm_mem env name 3 (4 / 5) s hs
    · rw [heq]
      exact gcm_sorted env name 3 (4 / 5)
  · intro hcat hname
    subst hname
    have h1 : "gpt4" ∉ env.model_cost := by
      rw [hcat]
      decide
    have h2 : env.model_cost.filter (fun m => strContains m "gpt4") = [] := by
      rw [hcat]
      decide
    have heq : fuzzy_match_models env "gpt4" = get_close_matches env "gpt4" 3 (4 / 5) := by
      unfold fuzzy_match_models
      rw [if_neg h1, if_pos h2]
    refine ⟨heq, ?_⟩
    rw [heq]
    exact gcm_length env "gpt4" 3 (4 / 5)

/-- Witness for C8: against the catalog `["gpt-4"]`, the query `"gpt4"` takes
the close-match branch and returns at most 3 names. -/
theorem claim8_witness :
    fuzzy_match_models envC8 "gpt4" = get_close_matches envC8 "gpt4" 3 (4 / 5) ∧
    (fuzzy_match_models envC8 "gpt4").length ≤ 3 :=
  (claim8_fuzzy_match envC8 "gpt4").2.2.2 rfl rfl
